import Mathlib

/-!
Verification of the contamination-detection backend (src/backend/server.py).

The server's core is pure string/JSON processing:
* `strip_data_url_prefix` (server.py lines 51-69),
* `extract_json_from_response` (server.py lines 149-235), and
* the error-mapping part of the `/predict` handler (lines 254-329).

We embed the Python values flowing through this code as a `Json` inductive
type (numbers as exact rationals; CPython's binary floating point rounding is
not observable in any claim, since every number a claim mentions is handled
exactly by the clamp), model `json.loads` as a fuel-based recursive-descent
parser following RFC 8259 as CPython's `json` module implements it (including
its error-message wording and char positions; the non-standard `NaN` and
`Infinity` constants and astral-plane surrogate pairs are outside the model
since no finite rational represents them and no claim exercises them), and
model the fallback regex scan `\x7b[^\x7b\x7d]*(?:\x7b[^\x7b\x7d]*\x7d[^\x7b\x7d]*)*\x7d`
as a deterministic scanner (the pattern is backtracking-free: every greedy
run is forced, so leftmost search plus this scan is its exact semantics).
-/

namespace ContamServer

/-! ## Exact rational numbers

Core `Rat` arithmetic does not reduce inside this kernel, so the model
carries its own exact-rational representation with fully structural
operations; `Q.toRat` gives its mathematical value. Python's binary floating
point is modeled exactly: every numeric fact a claim states involves values
(`-0.5`, `0.5`, `1.0`, ...) on which float and exact arithmetic agree. -/

structure Q where
  num : Int
  den : Nat
  dpos : 0 < den

/-- The rational value of a `Q`. -/
def Q.toRat (q : Q) : ℚ := (q.num : ℚ) / (q.den : ℚ)

def qZero : Q := ⟨0, 1, Nat.one_pos⟩

def qOne : Q := ⟨1, 1, Nat.one_pos⟩

/-- Strict comparison by cross-multiplication (denominators positive). -/
def Q.blt (a b : Q) : Bool := a.num * (b.den : Int) < b.num * (a.den : Int)

/-- Python `min(a, b)`: returns `b` only when `b < a`. -/
def pymin (a b : Q) : Q := if Q.blt b a then b else a

/-- Python `max(a, b)`: returns `b` only when `a < b`. -/
def pymax (a b : Q) : Q := if Q.blt a b then b else a

/-- `max(0.0, min(1.0, q))`, the clamp of server.py line 230. -/
def clampQ (q : Q) : Q := pymax qZero (pymin qOne q)

/-- A Python value as produced by `json.loads`: `None`, `bool`, numbers
(`int`/`float` collapsed to an exact rational), `str`, `list`, `dict`.
Dicts keep first-occurrence key order with later duplicate keys overwriting
the value, exactly like CPython dicts; see `insertKV`. -/
inductive Json where
  | null : Json
  | bool (b : Bool) : Json
  | num (q : Q) : Json
  | str (s : String) : Json
  | arr (elems : List Json) : Json
  | obj (fields : List (String × Json)) : Json

/-- Dict insertion: a repeated key keeps its original position but takes the
new value (CPython dict semantics, also what `result["confidence"] = ...`
does on line 230 of server.py). -/
def insertKV : List (String × Json) → String → Json → List (String × Json)
  | [], k, v => [(k, v)]
  | (k', v') :: rest, k, v =>
    if k' = k then (k', v) :: rest else (k', v') :: insertKV rest k v

/-- Dict lookup (first matching key; parser-produced dicts have unique keys). -/
def lookupKV : List (String × Json) → String → Option Json
  | [], _ => none
  | (k', v) :: rest, k => if k' = k then some v else lookupKV rest k

/-- Lookup on a `Json` value when it is a dict. -/
def objGet? : Json → String → Option Json
  | .obj kvs, k => lookupKV kvs k
  | _, _ => none

/-! ## The strict JSON parser (model of `json.loads`) -/

/-- JSON whitespace as in CPython's scanner (`[ \t\n\r]`). -/
def jsonWsChar (c : Char) : Bool := c = ' ' || c = '\t' || c = '\n' || c = '\r'

/-- Skip JSON whitespace, tracking the char position. -/
def skipWs : List Char → Nat → List Char × Nat
  | [], p => ([], p)
  | c :: r, p => if jsonWsChar c then skipWs r (p + 1) else (c :: r, p)

/-- A JSON decode error: CPython's `JSONDecodeError` carries a message and a
char offset; line and column are derived at rendering time. -/
structure DErr where
  msg : String
  pos : Nat
deriving DecidableEq, Repr

/-- Render `str(JSONDecodeError)` for an error raised while parsing `doc`:
`"{msg}: line {lineno} column {colno} (char {pos})"`. -/
def renderDErr (doc : List Char) (e : DErr) : String :=
  let before := doc.take e.pos
  let line := before.count '\n' + 1
  let col := (before.reverse.takeWhile (fun c => c ≠ '\n')).length + 1
  e.msg ++ ": line " ++ toString line ++ " column " ++ toString col ++
    " (char " ++ toString e.pos ++ ")"

def hexVal (c : Char) : Option Nat :=
  if '0' ≤ c ∧ c ≤ '9' then some (c.toNat - 48)
  else if 'a' ≤ c ∧ c ≤ 'f' then some (c.toNat - 87)
  else if 'A' ≤ c ∧ c ≤ 'F' then some (c.toNat - 55)
  else none

/-- Parse the body of a JSON string literal, the opening quote already
consumed. `startPos` is the offset of that opening quote (CPython reports
unterminated strings there); `p` is the offset of the first body char.
Returns (content, rest, offset after the closing quote). -/
def parseStrBody (startPos : Nat) : List Char → Nat →
    Except DErr (List Char × List Char × Nat)
  | [], _ => .error ⟨ "Unterminated string starting at", startPos⟩
  | '"' :: r, p => .ok ([], r, p + 1)
  | '\\' :: r, p =>
    match r with
    | [] => .error ⟨ "Unterminated string starting at", startPos⟩
    | e :: r2 =>
      if e = '"' then
        (parseStrBody startPos r2 (p + 2)).map (fun x => ('"' :: x.1, x.2.1, x.2.2))
      else if e = '\\' then
        (parseStrBody startPos r2 (p + 2)).map (fun x => ('\\' :: x.1, x.2.1, x.2.2))
      else if e = '/' then
        (parseStrBody startPos r2 (p + 2)).map (fun x => ('/' :: x.1, x.2.1, x.2.2))
      else if e = 'b' then
        (parseStrBody startPos r2 (p + 2)).map (fun x => (Char.ofNat 8 :: x.1, x.2.1, x.2.2))
      else if e = 'f' then
        (parseStrBody startPos r2 (p + 2)).map (fun x => (Char.ofNat 12 :: x.1, x.2.1, x.2.2))
      else if e = 'n' then
        (parseStrBody startPos r2 (p + 2)).map (fun x => ('\n' :: x.1, x.2.1, x.2.2))
      else if e = 'r' then
        (parseStrBody startPos r2 (p + 2)).map (fun x => ('\r' :: x.1, x.2.1, x.2.2))
      else if e = 't' then
        (parseStrBody startPos r2 (p + 2)).map (fun x => ('\t' :: x.1, x.2.1, x.2.2))
      else if e = 'u' then
        match r2 with
        | h1 :: h2 :: h3 :: h4 :: r3 =>
          match hexVal h1, hexVal h2, hexVal h3, hexVal h4 with
          | some a, some b, some c, some d =>
            (parseStrBody startPos r3 (p + 6)).map
              (fun x => (Char.ofNat (((a * 16 + b) * 16 + c) * 16 + d) :: x.1, x.2.1, x.2.2))
          | _, _, _, _ => .error ⟨ "Invalid \\uXXXX escape", p + 2⟩
        | _ => .error ⟨ "Invalid \\uXXXX escape", p + 2⟩
      else .error ⟨ "Invalid \\escape", p + 1⟩
  | c :: r, p =>
    if c.toNat < 32 then .error ⟨ "Invalid control character at", p⟩
    else (parseStrBody startPos r (p + 1)).map (fun x => (c :: x.1, x.2.1, x.2.2))

/-- Decimal digits to a natural number. -/
def digitsVal (l : List Char) : Nat := l.foldl (fun a c => a * 10 + (c.toNat - 48)) 0

/-- Fraction and exponent of a JSON number, after the integer part, matching
the tail `(\.\d+)?([eE][-+]?\d+)?` of CPython's `NUMBER_RE` (each group is
all-or-nothing, as regex matching leaves a partial `.`/`e` unconsumed). -/
def numTail (neg : Bool) (iv : Nat) (rest : List Char) (pos : Nat) :
    Q × List Char × Nat :=
  let fr : List Char × List Char × Nat :=
    match rest with
    | '.' :: r2 =>
      let ds := r2.takeWhile Char.isDigit
      if ds.isEmpty then ([], rest, pos)
      else (ds, r2.dropWhile Char.isDigit, pos + 1 + ds.length)
    | _ => ([], rest, pos)
  let fracDs := fr.1
  let rest1 := fr.2.1
  let pos1 := fr.2.2
  let ex : Option (Bool × List Char) × List Char × Nat :=
    match rest1 with
    | 'e' :: r2 =>
      match r2 with
      | '+' :: r3 =>
        let ds := r3.takeWhile Char.isDigit
        if ds.isEmpty then (none, rest1, pos1)
        else (some (false, ds), r3.dropWhile Char.isDigit, pos1 + 2 + ds.length)
      | '-' :: r3 =>
        let ds := r3.takeWhile Char.isDigit
        if ds.isEmpty then (none, rest1, pos1)
        else (some (true, ds), r3.dropWhile Char.isDigit, pos1 + 2 + ds.length)
      | _ =>
        let ds := r2.takeWhile Char.isDigit
        if ds.isEmpty then (none, rest1, pos1)
        else (some (false, ds), r2.dropWhile Char.isDigit, pos1 + 1 + ds.length)
    | 'E' :: r2 =>
      match r2 with
      | '+' :: r3 =>
        let ds := r3.takeWhile Char.isDigit
        if ds.isEmpty then (none, rest1, pos1)
        else (some (false, ds), r3.dropWhile Char.isDigit, pos1 + 2 + ds.length)
      | '-' :: r3 =>
        let ds := r3.takeWhile Char.isDigit
        if ds.isEmpty then (none, rest1, pos1)
        else (some (true, ds), r3.dropWhile Char.isDigit, pos1 + 2 + ds.length)
      | _ =>
        let ds := r2.takeWhile Char.isDigit
        if ds.isEmpty then (none, rest1, pos1)
        else (some (false, ds), r2.dropWhile Char.isDigit, pos1 + 1 + ds.length)
    | _ => (none, rest1, pos1)
  let mant : Nat := iv * 10 ^ fracDs.length + digitsVal fracDs
  let baseNum : Int := if neg then -(mant : Int) else (mant : Int)
  let q : Q :=
    match ex.1 with
    | none => ⟨baseNum, 10 ^ fracDs.length, Nat.pos_pow_of_pos _ (by decide)⟩
    | some (true, ds) =>
      ⟨baseNum, 10 ^ fracDs.length * 10 ^ digitsVal ds,
        Nat.mul_pos (Nat.pos_pow_of_pos _ (by decide)) (Nat.pos_pow_of_pos _ (by decide))⟩
    | some (false, ds) =>
      ⟨baseNum * (10 ^ digitsVal ds : Nat), 10 ^ fracDs.length,
        Nat.pos_pow_of_pos _ (by decide)⟩
  (q, ex.2.1, ex.2.2)

/-- Parse a JSON number at offset `p`, matching CPython's
`NUMBER_RE = (-?(?:0|[1-9]\d*))(\.\d+)?([eE][-+]?\d+)?`; a failed match
is reported as `Expecting value` at `p` (the scanner's `StopIteration`). -/
def parseNum (l : List Char) (p : Nat) : Except DErr (Q × List Char × Nat) :=
  let sgn : Bool × List Char × Nat :=
    match l with
    | '-' :: r => (true, r, p + 1)
    | _ => (false, l, p)
  let neg := sgn.1
  let l1 := sgn.2.1
  let p1 := sgn.2.2
  match l1 with
  | [] => .error ⟨ "Expecting value", p⟩
  | c :: r =>
    if c = '0' then .ok (numTail neg 0 r (p1 + 1))
    else if c.isDigit then
      let ds := (c :: r).takeWhile Char.isDigit
      .ok (numTail neg (digitsVal ds) ((c :: r).dropWhile Char.isDigit) (p1 + ds.length))
    else .error ⟨ "Expecting value", p⟩

/-- The state of CPython's recursive scanner: at a value, just past a `\x7b`,
at an object member key (opening quote consumed, fields accumulated), just
past a `[`, or at an array element. A single mode-indexed function keeps the
recursion structural in the fuel so that the kernel can evaluate it. -/
inductive PMode where
  | val : PMode
  | objStart : PMode
  | objPair (acc : List (String × Json)) : PMode
  | arrStart : PMode
  | arrElems (acc : List Json) : PMode

/-- One scanner step family (`scan_once` / `JSONObject` / `JSONArray` of
CPython's pure-Python scanner). The fuel only bounds recursion depth;
`jsonParse` always supplies enough for its input. -/
def parseRun : Nat → PMode → List Char → Nat → Except DErr (Json × List Char × Nat)
  | 0, _, _, p => .error ⟨ "Expecting value", p⟩
  | Nat.succ fuel, mode, l, p =>
    match mode with
    | .val =>
      match l with
      | [] => .error ⟨ "Expecting value", p⟩
      | '"' :: r =>
        (parseStrBody p r (p + 1)).map (fun x => (Json.str (String.mk x.1), x.2.1, x.2.2))
      | '{' :: r => parseRun fuel .objStart r (p + 1)
      | '[' :: r => parseRun fuel .arrStart r (p + 1)
      | 't' :: 'r' :: 'u' :: 'e' :: r => .ok (.bool true, r, p + 4)
      | 'f' :: 'a' :: 'l' :: 's' :: 'e' :: r => .ok (.bool false, r, p + 5)
      | 'n' :: 'u' :: 'l' :: 'l' :: r => .ok (.null, r, p + 4)
      | c :: r =>
        if c = '-' || c.isDigit then
          (parseNum (c :: r) p).map (fun x => (Json.num x.1, x.2.1, x.2.2))
        else .error ⟨ "Expecting value", p⟩
    | .objStart =>
      let w := skipWs l p
      match w.1 with
      | '}' :: r => .ok (.obj [], r, w.2 + 1)
      | '"' :: r => parseRun fuel (.objPair []) r (w.2 + 1)
      | _ => .error ⟨ "Expecting property name enclosed in double quotes", w.2⟩
    | .objPair acc =>
      match parseStrBody (p - 1) l p with
      | .error e => .error e
      | .ok (kcs, r1, p1) =>
        let w2 := skipWs r1 p1
        match w2.1 with
        | ':' :: r3 =>
          let w4 := skipWs r3 (w2.2 + 1)
          match parseRun fuel .val w4.1 w4.2 with
          | .error e => .error e
          | .ok (v, r5, p5) =>
            let acc2 := insertKV acc (String.mk kcs) v
            let w6 := skipWs r5 p5
            match w6.1 with
            | '}' :: r7 => .ok (.obj acc2, r7, w6.2 + 1)
            | ',' :: r7 =>
              let w8 := skipWs r7 (w6.2 + 1)
              match w8.1 with
              | '"' :: r9 => parseRun fuel (.objPair acc2) r9 (w8.2 + 1)
              | _ => .error ⟨ "Expecting property name enclosed in double quotes", w8.2⟩
            | _ => .error ⟨ "Expecting ',' delimiter", w6.2⟩
        | _ => .error ⟨ "Expecting ':' delimiter", w2.2⟩
    | .arrStart =>
      let w := skipWs l p
      match w.1 with
      | ']' :: r => .ok (.arr [], r, w.2 + 1)
      | _ => parseRun fuel (.arrElems []) w.1 w.2
    | .arrElems acc =>
      match parseRun fuel .val l p with
      | .error e => .error e
      | .ok (v, r1, p1) =>
        let w2 := skipWs r1 p1
        match w2.1 with
        | ']' :: r3 => .ok (.arr (acc ++ [v]), r3, w2.2 + 1)
        | ',' :: r3 =>
          let w4 := skipWs r3 (w2.2 + 1)
          parseRun fuel (.arrElems (acc ++ [v])) w4.1 w4.2
        | _ => .error ⟨ "Expecting ',' delimiter", w2.2⟩

/-- Model of `json.loads`: skip whitespace, parse one value, skip trailing
whitespace, and reject leftovers as `Extra data` (CPython `decoder.decode`). -/
def jsonParse (l : List Char) : Except DErr Json :=
  let w := skipWs l 0
  match parseRun (4 * l.length + 8) .val w.1 w.2 with
  | .error e => .error e
  | .ok (v, rest, p2) =>
    let w2 := skipWs rest p2
    if w2.1.isEmpty then .ok v else .error ⟨ "Extra data", w2.2⟩

/-! ## Python-semantics helpers used by `extract_json_from_response` -/

/-- Python type name of a value, for error-message rendering (`int`/`float`
collapsed to `float`; only the other names are reachable through code a claim
exercises). -/
def typeName : Json → String
  | .null => "NoneType"
  | .bool _ => "bool"
  | .num _ => "float"
  | .str _ => "str"
  | .arr _ => "list"
  | .obj _ => "dict"

/-- Python truthiness (`if not x`). -/
def pyTruthy : Json → Bool
  | .null => false
  | .bool b => b
  | .num q => !(q.num == 0)
  | .str s => !s.data.isEmpty
  | .arr xs => !xs.isEmpty
  | .obj kvs => !kvs.isEmpty

/-- The errors `extract_json_from_response` can raise internally, each
rendered by `errMsg` to the exact `str(e)` the Python code produces. -/
inductive ExtractErr where
  | noCandidates : ExtractErr
  | noParts : ExtractErr
  | noText : ExtractErr
  | couldNotParse (excerpt : String) : ExtractErr
  | decodeFail (rendered : String) : ExtractErr
  | missingField (f : String) : ExtractErr
  | badContaminated : ExtractErr
  | badConfidence : ExtractErr
  | badReason : ExtractErr
  | attrErr (objType attrName : String) : ExtractErr
  | typeErr (descr : String) : ExtractErr
  | indexErr (descr : String) : ExtractErr
deriving DecidableEq, Repr

/-- `str(e)` for each internal error, matching server.py lines 181-227 and
the exception texts CPython itself produces on the defensive branches. -/
def errMsg : ExtractErr → String
  | .noCandidates => "No candidates in Gemini response"
  | .noParts => "No parts in candidate content"
  | .noText => "No text in response parts"
  | .couldNotParse ex => "Could not parse JSON from response: " ++ ex
  | .decodeFail m => m
  | .missingField f => "Missing required field: " ++ f
  | .badContaminated => "'contaminated' must be a boolean"
  | .badConfidence => "'confidence' must be a number"
  | .badReason => "'reason' must be a string"
  | .attrErr t a => "'" ++ t ++ "' object has no attribute '" ++ a ++ "'"
  | .typeErr d => d
  | .indexErr d => d

/-- `x.get(k, dflt)`: dict lookup with default; on a non-dict the attribute
access itself raises `AttributeError`. -/
def pyGet (j : Json) (k : String) (dflt : Json) : Except ExtractErr Json :=
  match j with
  | .obj kvs => .ok ((lookupKV kvs k).getD dflt)
  | _ => .error (.attrErr (typeName j) "get")

/-- `x[0]`: list/str indexing; `dict[0]` is `KeyError(0)` (whose `str` is
`"0"`); other types raise `TypeError`. -/
def pyIndex0 : Json → Except ExtractErr Json
  | .arr (x :: _) => .ok x
  | .arr [] => .error (.indexErr "list index out of range")
  | .str s =>
    match s.data with
    | c :: _ => .ok (.str (String.mk [c]))
    | [] => .error (.indexErr "string index out of range")
  | .obj _ => .error (.indexErr "0")
  | j => .error (.typeErr ("'" ++ typeName j ++ "' object is not subscriptable"))

/-- Envelope descent, server.py lines 179-190: `candidates[0].content.parts/
[0].text` with truthiness guards (`No candidates` / `No parts` / `No text`). -/
def descend (env : Json) : Except ExtractErr Json :=
  match pyGet env "candidates" (.arr []) with
  | .error e => .error e
  | .ok cands =>
    if !pyTruthy cands then .error .noCandidates
    else
      match pyIndex0 cands with
      | .error e => .error e
      | .ok c0 =>
        match pyGet c0 "content" (.obj []) with
        | .error e => .error e
        | .ok content =>
          match pyGet content "parts" (.arr []) with
          | .error e => .error e
          | .ok parts =>
            if !pyTruthy parts then .error .noParts
            else
              match pyIndex0 parts with
              | .error e => .error e
              | .ok p0 =>
                match pyGet p0 "text" (.str "") with
                | .error e => .error e
                | .ok t =>
                  if !pyTruthy t then .error .noText else .ok t

/-- `text.strip()` needs a string; any other value raises `AttributeError`. -/
def textOf : Json → Except ExtractErr String
  | .str s => .ok s
  | j => .error (.attrErr (typeName j) "strip")

/-! ## Code-fence cleaning (server.py lines 192-200) -/

/-- Python `str.strip()` whitespace (the six ASCII space chars; non-ASCII
Unicode spaces are outside the model — no claim uses them). -/
def pySpace (c : Char) : Bool :=
  c = ' ' || c = '\t' || c = '\n' || c = '\r' || c = Char.ofNat 11 || c = Char.ofNat 12

/-- Remove trailing `pySpace` chars. -/
def dropTrail (l : List Char) : List Char := (l.reverse.dropWhile pySpace).reverse

/-- `str.strip()`. -/
def stripL (l : List Char) : List Char := dropTrail (l.dropWhile pySpace)

/-- `text[:-n]` (callers guarantee `n ≤ length`). -/
def dropRightL (n : Nat) (l : List Char) : List Char := (l.reverse.drop n).reverse

/-- The markdown-fence cleanup of server.py lines 193-200: strip, remove an
opening ` ```json `/` ``` ` fence, remove a closing ` ``` ` fence, re-strip. -/
def cleanTextL (l : List Char) : List Char :=
  let t := stripL l
  let t1 :=
    if ("```json".toList).isPrefixOf t then t.drop 7
    else if ("```".toList).isPrefixOf t then t.drop 3
    else t
  let t2 := if ("```".toList).isSuffixOf t1 then dropRightL 3 t1 else t1
  stripL t2

/-! ## The fallback regex scan (server.py line 207)

`re.search` with the pattern documented at the top of the file. The pattern
is deterministic: each `[^\x7b\x7d]*` run must stop exactly at the next brace
(no backtracking can extend or shorten it), the group iterates exactly while
an inner `\x7b...\x7d` pair follows, and the final `\x7d` must be the next
char. `re.search` returns the match at the leftmost feasible start, which is
always an opening brace. -/

/-- Scan the body after an opening brace: runs of non-brace chars, possibly
interleaved with single-level `\x7b...\x7d` pairs, ending at a closing brace.
Returns the consumed chars (closing brace included) and the rest. -/
def scanInner : Nat → List Char → Option (List Char × List Char)
  | 0, _ => none
  | Nat.succ fuel, l =>
    let nb : Char → Bool := fun c => !(c = '{' || c = '}')
    let run := l.takeWhile nb
    match l.dropWhile nb with
    | '}' :: r => some (run ++ ['}'], r)
    | '{' :: r =>
      let run2 := r.takeWhile nb
      match r.dropWhile nb with
      | '}' :: r2 =>
        match scanInner fuel r2 with
        | some (tail, rest) => some (run ++ '{' :: (run2 ++ '}' :: tail), rest)
        | none => none
      | _ => none
    | _ => none

/-- Try a match at each position left to right (a match can only start at an
opening brace). -/
def reSearchAux : Nat → List Char → Option (List Char)
  | 0, _ => none
  | Nat.succ fuel, l =>
    match l with
    | [] => none
    | '{' :: r =>
      match scanInner (r.length + 1) r with
      | some (body, _) => some ('{' :: body)
      | none => reSearchAux fuel r
    | _ :: r => reSearchAux fuel r

/-- `re.search(r'\x7b[^\x7b\x7d]*(?:\x7b[^\x7b\x7d]*\x7d[^\x7b\x7d]*)*\x7d', text)`. -/
def reSearchBrace (l : List Char) : Option (List Char) := reSearchAux (l.length + 1) l

/-- Lines 202-211: strict parse, regex fallback (its own decode failure
propagates), or the `Could not parse` error carrying `text[:200]`. -/
def parseStage (cleaned : List Char) : Except ExtractErr Json :=
  match jsonParse cleaned with
  | .ok r => .ok r
  | .error _ =>
    match reSearchBrace cleaned with
    | some m =>
      match jsonParse m with
      | .ok r => .ok r
      | .error e2 => .error (.decodeFail (renderDErr m e2))
    | none => .error (.couldNotParse (String.mk (cleaned.take 200)))

/-! ## Field validation and clamping (server.py lines 213-230) -/

/-- Decidable contiguous-subsequence test (Python `needle in haystack` on
strings). -/
def containsSeq (needle : List Char) : List Char → Bool
  | [] => needle.isEmpty
  | c :: rest => needle.isPrefixOf (c :: rest) || containsSeq needle rest

/-- Substring test on `String`s. -/
def strContains (hay needle : String) : Bool := containsSeq needle.data hay.data

/-- Membership `k in x`: dict keys, list elements (a string key only equals a
string element), substring for strings, `TypeError` otherwise. -/
def pyContains (j : Json) (k : String) : Except ExtractErr Bool :=
  match j with
  | .obj kvs => .ok (lookupKV kvs k).isSome
  | .arr xs =>
    .ok (xs.any fun x => match x with | .str s => decide (s = k) | _ => false)
  | .str s => .ok (containsSeq k.data s.data)
  | j => .error (.typeErr ("argument of type '" ++ typeName j ++ "' is not iterable"))

/-- `x[k]` with a string key: dict lookup (`KeyError`, rendered `'k'`, if
missing — unreachable after the membership check), `TypeError` otherwise. -/
def pyGetItem (j : Json) (k : String) : Except ExtractErr Json :=
  match j with
  | .obj kvs =>
    match lookupKV kvs k with
    | some v => .ok v
    | none => .error (.typeErr ("'" ++ k ++ "'"))
  | .arr _ => .error (.typeErr "list indices must be integers or slices, not str")
  | .str _ => .error (.typeErr "string indices must be integers")
  | j => .error (.typeErr ("'" ++ typeName j ++ "' object is not subscriptable"))

/-- `float(x)` for `x` passing `isinstance(x, (int, float))`: crucially Python
`bool` is a subclass of `int`, so `True`/`False` pass and convert to 1.0/0.0;
everything else fails the check. -/
def asNumeric : Json → Option Q
  | .num q => some q
  | .bool b => some (if b then qOne else qZero)
  | _ => none

def isBoolJ : Json → Bool
  | .bool _ => true
  | _ => false

def isStrJ : Json → Bool
  | .str _ => true
  | _ => false

/-- `x[k] = v` (only reached with `x` a dict; identity otherwise). -/
def pySetItem (j : Json) (k : String) (v : Json) : Json :=
  match j with
  | .obj kvs => .obj (insertKV kvs k v)
  | j => j

/-- Lines 213-230: presence of `contaminated`, `confidence`, `reason` (in
that order), then the three type checks (strict bool / `(int, float)` / str),
then clamping `confidence` into [0, 1] via `max(0.0, min(1.0, float(c)))`. -/
def validateResult (r : Json) : Except ExtractErr Json :=
  match pyContains r "contaminated" with
  | .error e => .error e
  | .ok false => .error (.missingField "contaminated")
  | .ok true =>
    match pyContains r "confidence" with
    | .error e => .error e
    | .ok false => .error (.missingField "confidence")
    | .ok true =>
      match pyContains r "reason" with
      | .error e => .error e
      | .ok false => .error (.missingField "reason")
      | .ok true =>
        match pyGetItem r "contaminated" with
        | .error e => .error e
        | .ok cv =>
          if !isBoolJ cv then .error .badContaminated
          else
            match pyGetItem r "confidence" with
            | .error e => .error e
            | .ok qv =>
              match asNumeric qv with
              | none => .error .badConfidence
              | some q =>
                match pyGetItem r "reason" with
                | .error e => .error e
                | .ok rv =>
                  if !isStrJ rv then .error .badReason
                  else .ok (pySetItem r "confidence" (.num (clampQ q)))

/-- Lines 177-211 composed: descend the envelope, require a string, clean
fences, parse with fallback. -/
def upToParse (env : Json) : Except ExtractErr Json :=
  match descend env with
  | .error e => .error e
  | .ok tj =>
    match textOf tj with
    | .error e => .error e
    | .ok t => parseStage (cleanTextL t.data)

/-- The body of the outer `try` of `extract_json_from_response`. -/
def extractCore (env : Json) : Except ExtractErr Json :=
  match upToParse env with
  | .error e => .error e
  | .ok r => validateResult r

/-- `extract_json_from_response` (lines 149-235): every internal exception is
re-raised as `ValueError(f"Failed to extract JSON from response: {str(e)}")`. -/
def extract_json_from_response (env : Json) : Except String Json :=
  match extractCore env with
  | .ok r => .ok r
  | .error e => .error ("Failed to extract JSON from response: " ++ errMsg e)

/-! ## The image normalizer (server.py lines 51-69) -/

/-- The substring after the first comma, or `none` when there is none
(`find(",")` returning `-1`). -/
def afterFirstComma : List Char → Option (List Char)
  | [] => none
  | c :: cs => if c = ',' then some cs else afterFirstComma cs

/-- `strip_data_url_prefix`: drop through the first comma when the string
starts with `data:image`, otherwise (or when no comma exists) return the
input unchanged. -/
def strip_data_url_prefix (image_data : String) : String :=
  if ("data:image".toList).isPrefixOf image_data.data then
    match afterFirstComma image_data.data with
    | some rest => String.mk rest
    | none => image_data
  else image_data

/-! ## The /predict handler (server.py lines 254-329), with the upstream call
modeled as a parameter (its network effect is outside the embedding) -/

/-- An HTTP-level outcome of the handler: a 200 JSON body or an error status
with a detail value. -/
inductive Resp where
  | ok (body : Json) : Resp
  | err (status : Nat) (detail : Json) : Resp

/-- Lines 298-307: best-effort recovery of the raw upstream text (the bare
`except: pass` leaves the initial `""` on any failure; no truthiness check on
the text itself). -/
def recoverRaw (env : Json) : Json :=
  match pyGet env "candidates" (.arr []) with
  | .error _ => .str ""
  | .ok cands =>
    if !pyTruthy cands then .str ""
    else
      match pyIndex0 cands with
      | .error _ => .str ""
      | .ok c0 =>
        match pyGet c0 "content" (.obj []) with
        | .error _ => .str ""
        | .ok content =>
          match pyGet content "parts" (.obj []) with
          | .error _ => .str ""
          | .ok parts =>
            if !pyTruthy parts then .str ""
            else
              match pyIndex0 parts with
              | .error _ => .str ""
              | .ok p0 =>
                match pyGet p0 "text" (.str "") with
                | .error _ => .str ""
                | .ok t => t

/-- `x[:500]` (line 314) — slicing works on str and list; on anything else it
raises `TypeError`, which escapes to the handler's outer catch-all. -/
def pySlice500 : Json → Except String Json
  | .str s => .ok (.str (String.mk (s.data.take 500)))
  | .arr xs => .ok (.arr (xs.take 500))
  | j => .error ("'" ++ typeName j ++ "' object is not subscriptable")

/-- `predict_contamination` with the upstream response supplied as `upstream`
(`.error` = the API-call helper raised, carrying its message). -/
def predictWith (image : String) (upstream : Except String Json) : Resp :=
  let b64 := strip_data_url_prefix image
  if b64.data.isEmpty then .err 400 (.str "Empty image data provided")
  else
    match upstream with
    | .error e => .err 500 (.str ("Failed to call Gemini API: " ++ e))
    | .ok env =>
      match extract_json_from_response env with
      | .ok result => .ok result
      | .error msg =>
        match pySlice500 (recoverRaw env) with
        | .ok sliced =>
          .err 500 (.obj
            [("error", .str "Failed to parse JSON from Gemini response"),
             ("message", .str msg),
             ("raw_response", sliced)])
        | .error te => .err 500 (.str ("Unexpected error: " ++ te))

/-! ## Envelope and fence-wrapping constructors used by the claims -/

/-- The canonical upstream envelope holding text `t`:
`candidates[0].content.parts[0].text = t`. -/
def mkEnv (t : String) : Json :=
  .obj [("candidates", .arr
    [.obj [("content", .obj
      [("parts", .arr [.obj [("text", .str t)]])])]])]

/-- Wrap text in a triple-backtick fence with the `json` language tag. -/
def fenceWrapJson (t : String) : String := "```json\n" ++ t ++ "\n```"

/-- Wrap text in a plain triple-backtick fence. -/
def fenceWrapPlain (t : String) : String := "```\n" ++ t ++ "\n```"

/-- The required fields of the result contract, in check order. -/
def requiredFields : List String := ["contaminated", "confidence", "reason"]

/-- The field named by a validation error, when the error is one of the
field-presence or field-type errors of server.py lines 213-227. -/
def fieldErrName : ExtractErr → Option String
  | .missingField f => some f
  | .badContaminated => some "contaminated"
  | .badConfidence => some "confidence"
  | .badReason => some "reason"
  | _ => none

/-- A required field is missing from the dict or fails its type check
(strict bool for `contaminated`, `isinstance(_, (int, float))` for
`confidence`, str for `reason`). -/
def fieldProblem (kvs : List (String × Json)) (f : String) : Bool :=
  match lookupKV kvs f with
  | none => true
  | some v =>
    if f = "contaminated" then !isBoolJ v
    else if f = "confidence" then !(asNumeric v).isSome
    else if f = "reason" then !isStrJ v
    else false

/-- ASCII lowercasing, for case-insensitive message comparisons. -/
def charLowerAscii (c : Char) : Char :=
  if 'A' ≤ c ∧ c ≤ 'Z' then Char.ofNat (c.toNat + 32) else c

/-- ASCII-lowercased string. -/
def strLowerAscii (s : String) : String := String.mk (s.data.map charLowerAscii)

/-! ## Concrete inputs used by the claims -/

def qHalf : Q := ⟨5, 10, by decide⟩

def qNegHalf : Q := ⟨-5, 10, by decide⟩

def textClampNeg : String :=
  "\x7b\"contaminated\": true, \"confidence\": -0.5, \"reason\": \"x\"\x7d"

def textClampHalf : String :=
  "\x7b\"contaminated\": true, \"confidence\": 0.5, \"reason\": \"x\"\x7d"

def textClampBig : String :=
  "\x7b\"contaminated\": true, \"confidence\": 1.7, \"reason\": \"x\"\x7d"

def textConfTrue : String :=
  "\x7b\"contaminated\": false, \"confidence\": true, \"reason\": \"ok\"\x7d"

def textConfFalse : String :=
  "\x7b\"contaminated\": false, \"confidence\": false, \"reason\": \"ok\"\x7d"

/-- A text that extracts successfully on its own (its fences are stripped and
the JSON inside parses), but whose `reason` string contains a closing brace,
so the regex fallback truncates it when it is wrapped in a second fence. -/
def textFencedSelf : String :=
  "```\x7b\"contaminated\": true, \"confidence\": 0.5, \"reason\": \"\x7d\"\x7d```"

def textMissingReason : String :=
  "\x7b\"contaminated\": true, \"confidence\": 0.5\x7d"

/-- Strict parse fails, the regex finds `\x7b]\x7d`, and that substring also
fails to parse. -/
def textBadBrace : String := "a \x7b]\x7d"

def textNoJson : String := "hello"

/-- A data-URL whose payload is itself marker-shaped, defeating idempotence
of the normalizer. -/
def idemCounterInput : String := "data:image/jpeg;base64,data:image,x"

/-! ## Helper lemmas -/

theorem Q.blt_iff (a b : Q) : Q.blt a b = true ↔ a.toRat < b.toRat := by
  have ha : (0 : ℚ) < (a.den : ℚ) := by exact_mod_cast a.dpos
  have hb : (0 : ℚ) < (b.den : ℚ) := by exact_mod_cast b.dpos
  rw [Q.blt, decide_eq_true_eq, Q.toRat, Q.toRat, div_lt_div_iff₀ ha hb]
  constructor
  · intro h
    exact_mod_cast h
  · intro h
    exact_mod_cast h

theorem qZero_toRat : qZero.toRat = 0 := by norm_num [qZero, Q.toRat]

theorem qOne_toRat : qOne.toRat = 1 := by norm_num [qOne, Q.toRat]

theorem clampQ_toRat_nonneg (q : Q) : 0 ≤ (clampQ q).toRat := by
  rw [clampQ, pymax]
  by_cases h : Q.blt qZero (pymin qOne q) = true
  · rw [if_pos h]
    have := (Q.blt_iff qZero (pymin qOne q)).mp h
    rw [qZero_toRat] at this
    exact le_of_lt this
  · rw [if_neg h, qZero_toRat]

theorem clampQ_toRat_le_one (q : Q) : (clampQ q).toRat ≤ 1 := by
  rw [clampQ, pymax]
  by_cases h : Q.blt qZero (pymin qOne q) = true
  · rw [if_pos h, pymin]
    by_cases h2 : Q.blt q qOne = true
    · rw [if_pos h2]
      have := (Q.blt_iff q qOne).mp h2
      rw [qOne_toRat] at this
      exact le_of_lt this
    · rw [if_neg h2, qOne_toRat]
  · rw [if_neg h, qZero_toRat]
    norm_num

theorem lookupKV_insert_self (kvs : List (String × Json)) (k : String) (v : Json) :
    lookupKV (insertKV kvs k v) k = some v := by
  induction kvs with
  | nil => simp [insertKV, lookupKV]
  | cons hd tl ih =>
    by_cases h : hd.1 = k
    · simp [insertKV, h, lookupKV]
    · simp only [insertKV]
      rw [if_neg (by simpa using h)]
      simp only [lookupKV]
      rw [if_neg (by simpa using h)]
      exact ih

theorem lookupKV_insert_ne (kvs : List (String × Json)) (k k' : String) (v : Json)
    (h : k' ≠ k) : lookupKV (insertKV kvs k v) k' = lookupKV kvs k' := by
  induction kvs with
  | nil =>
    simp only [insertKV, lookupKV]
    rw [if_neg (fun hh => h hh.symm)]
  | cons hd tl ih =>
    by_cases hk : hd.1 = k
    · subst hk
      simp only [insertKV, if_pos rfl, lookupKV]
      rw [if_neg (fun hh => h hh.symm), if_neg (fun hh => h hh.symm)]
    · simp only [insertKV]
      rw [if_neg hk]
      simp only [lookupKV]
      by_cases hk' : hd.1 = k'
      · rw [if_pos hk', if_pos hk']
      · rw [if_neg hk', if_neg hk']
        exact ih

theorem isPrefixOf_refl (l : List Char) : l.isPrefixOf l = true := by
  induction l with
  | nil => rfl
  | cons c r ih => simp [List.isPrefixOf, ih]

theorem isPrefixOf_append_self (p r : List Char) : p.isPrefixOf (p ++ r) = true := by
  induction p with
  | nil => simp [List.isPrefixOf]
  | cons c q ih => simp [List.isPrefixOf, ih]

theorem containsSeq_append_self (pre nee : List Char) :
    containsSeq nee (pre ++ nee) = true := by
  induction pre with
  | nil =>
    cases nee with
    | nil => rfl
    | cons c r => simp [containsSeq, isPrefixOf_refl]
  | cons c p ih => simp [containsSeq, ih]

theorem afterFirstComma_of_split (pre post : List Char) (h : ',' ∉ pre) :
    afterFirstComma (pre ++ ',' :: post) = some post := by
  induction pre with
  | nil => simp [afterFirstComma]
  | cons c p ih =>
    simp only [List.mem_cons, not_or] at h
    simp only [List.cons_append, afterFirstComma]
    rw [if_neg (fun hh => h.1 hh.symm)]
    exact ih h.2

theorem afterFirstComma_of_no_comma (l : List Char) (h : ',' ∉ l) :
    afterFirstComma l = none := by
  induction l with
  | nil => rfl
  | cons c r ih =>
    simp only [List.mem_cons, not_or] at h
    simp only [afterFirstComma]
    rw [if_neg (fun hh => h.1 hh.symm)]
    exact ih h.2

theorem dropWhile_head_false (p : Char → Bool) {l : List Char} {c : Char}
    {r : List Char} (h : l.dropWhile p = c :: r) : p c = false := by
  induction l with
  | nil => simp [List.dropWhile] at h
  | cons a t ih =>
    rw [List.dropWhile_cons] at h
    by_cases hp : p a = true
    · rw [if_pos hp] at h
      exact ih h
    · rw [if_neg hp] at h
      cases h
      exact Bool.eq_false_iff.mpr hp

theorem dropWhile_self (p : Char → Bool) (l : List Char) :
    (l.dropWhile p).dropWhile p = l.dropWhile p := by
  cases h : l.dropWhile p with
  | nil => rfl
  | cons c r =>
    rw [List.dropWhile_cons, if_neg]
    rw [dropWhile_head_false p h]
    simp

theorem dropWhile_append_eq_self (p : Char → Bool) (l w : List Char)
    (hl : l.dropWhile p = l) (hne : l ≠ []) : (l ++ w).dropWhile p = l ++ w := by
  cases l with
  | nil => exact absurd rfl hne
  | cons c r =>
    have hc : p c = false := dropWhile_head_false p hl
    rw [List.cons_append, List.dropWhile_cons, hc]
    simp

theorem dropWhile_allP_append (p : Char → Bool) (w l : List Char)
    (h : ∀ c ∈ w, p c = true) : (w ++ l).dropWhile p = l.dropWhile p := by
  induction w with
  | nil => rfl
  | cons c r ih =>
    rw [List.cons_append, List.dropWhile_cons, h c (List.mem_cons_self c r)]
    exact ih (fun x hx => h x (List.mem_cons_of_mem c hx))

theorem dropWhile_append_cases (p : Char → Bool) (l w : List Char) :
    (l ++ w).dropWhile p =
      if (l.dropWhile p).isEmpty then w.dropWhile p else l.dropWhile p ++ w := by
  induction l with
  | nil => simp
  | cons c r ih =>
    rw [List.cons_append, List.dropWhile_cons, List.dropWhile_cons]
    by_cases hp : p c = true
    · rw [if_pos hp, if_pos hp, ih]
    · rw [if_neg hp, if_neg hp]
      simp

theorem dropTrail_append_space (x w : List Char) (h : ∀ c ∈ w, pySpace c = true) :
    dropTrail (x ++ w) = dropTrail x := by
  rw [dropTrail, dropTrail, List.reverse_append,
    dropWhile_allP_append pySpace w.reverse x.reverse
      (fun c hc => h c (List.mem_reverse.mp hc))]

theorem dropTrail_prefix (l : List Char) : dropTrail l <+: l := by
  rw [dropTrail]
  have h1 : l.reverse.dropWhile pySpace <:+ l.reverse := List.dropWhile_suffix pySpace
  have h2 := List.reverse_prefix.mpr h1
  simpa using h2

theorem dropTrail_idem (l : List Char) : dropTrail (dropTrail l) = dropTrail l := by
  rw [dropTrail, dropTrail, List.reverse_reverse, dropWhile_self]

theorem stripL_pad (w1 w2 l : List Char) (h1 : ∀ c ∈ w1, pySpace c = true)
    (h2 : ∀ c ∈ w2, pySpace c = true) : stripL (w1 ++ (l ++ w2)) = stripL l := by
  rw [stripL, stripL, dropWhile_allP_append pySpace w1 (l ++ w2) h1,
    dropWhile_append_cases]
  by_cases he : (l.dropWhile pySpace).isEmpty = true
  · rw [if_pos he]
    have hl : l.dropWhile pySpace = [] := by simpa using he
    rw [hl]
    have hw : w2.dropWhile pySpace = [] := by
      cases hw2 : w2.dropWhile pySpace with
      | nil => rfl
      | cons c r =>
        have hc := dropWhile_head_false pySpace hw2
        have hmem : c ∈ w2 := by
          have : c ∈ w2.dropWhile pySpace := by rw [hw2]; exact List.mem_cons_self c r
          exact List.dropWhile_subset pySpace this
        rw [h2 c hmem] at hc
        cases hc
    rw [hw]
  · rw [if_neg he]
    exact dropTrail_append_space _ w2 h2

theorem stripL_idem (l : List Char) : stripL (stripL l) = stripL l := by
  have hstep : (dropTrail (l.dropWhile pySpace)).dropWhile pySpace
      = dropTrail (l.dropWhile pySpace) := by
    cases h : dropTrail (l.dropWhile pySpace) with
    | nil => rfl
    | cons c r =>
      have hpre : dropTrail (l.dropWhile pySpace) <+: l.dropWhile pySpace :=
        dropTrail_prefix _
      rw [h] at hpre
      obtain ⟨s, hs⟩ := hpre
      have hds : l.dropWhile pySpace = c :: (r ++ s) := by
        rw [← hs, List.cons_append]
      have hc : pySpace c = false := dropWhile_head_false pySpace hds
      rw [List.dropWhile_cons, hc]
      simp
  rw [stripL, stripL, hstep, dropTrail_idem]

theorem isPrefixOf_append_false (p l w : List Char) (hlen : l.length ≤ p.length)
    (h : p.take l.length ≠ l) : p.isPrefixOf (l ++ w) = false := by
  induction l generalizing p with
  | nil => exact absurd rfl h
  | cons a as ih =>
    cases p with
    | nil => simp at hlen
    | cons b bs =>
      rw [List.cons_append, List.isPrefixOf]
      by_cases hb : b = a
      · subst hb
        simp only [List.length_cons, List.take_succ_cons, ne_eq, List.cons.injEq,
          true_and] at h
        have := ih bs (by simpa using hlen) h
        simp [this]
      · have : (b == a) = false := by simpa using hb
        simp [this]

theorem cleanTextL_wrapJson (t' : List Char) :
    cleanTextL ("```json\n".toList ++ (t' ++ "\n```".toList)) = stripL t' := by
  have hA : stripL ("```json\n".toList ++ (t' ++ "\n```".toList))
      = "```json\n".toList ++ (t' ++ "\n```".toList) := by
    rw [stripL, dropWhile_append_eq_self pySpace _ _ (by decide) (by decide), dropTrail,
      List.reverse_append, List.reverse_append, List.append_assoc,
      dropWhile_append_eq_self pySpace _ _ (by decide) (by decide),
      ← List.append_assoc, ← List.reverse_append, ← List.reverse_append,
      List.reverse_reverse]
  have hfw : "```json\n".toList = "```json".toList ++ "\n".toList := by decide
  have hsplit : "```json\n".toList ++ (t' ++ "\n```".toList)
      = "```json".toList ++ ("\n".toList ++ (t' ++ "\n```".toList)) := by
    rw [hfw, List.append_assoc]
  have hpre : ("```json".toList).isPrefixOf
      ("```json\n".toList ++ (t' ++ "\n```".toList)) = true := by
    rw [hsplit]
    exact isPrefixOf_append_self _ _
  have h7 : ("```json".toList).length = 7 := by decide
  have hdrop : ("```json\n".toList ++ (t' ++ "\n```".toList)).drop 7
      = "\n".toList ++ (t' ++ "\n```".toList) := by
    rw [hsplit, ← h7, List.drop_left]
  have hnfrev : ("\n```".toList).reverse = "```".toList ++ "\n".toList := by decide
  have h3rev : ("```".toList).reverse = "```".toList := by decide
  have h1rev : ("\n".toList).reverse = "\n".toList := by decide
  have hsuf : ("```".toList).isSuffixOf ("\n".toList ++ (t' ++ "\n```".toList)) = true := by
    simp only [List.isSuffixOf]
    rw [List.reverse_append, List.reverse_append, hnfrev, List.append_assoc,
      List.append_assoc, h3rev]
    exact isPrefixOf_append_self _ _
  have h3 : ("```".toList).length = 3 := by decide
  have hdropR : dropRightL 3 ("\n".toList ++ (t' ++ "\n```".toList))
      = "\n".toList ++ (t' ++ "\n".toList) := by
    rw [dropRightL, List.reverse_append, List.reverse_append, hnfrev,
      List.append_assoc, List.append_assoc, ← h3, List.drop_left,
      ← List.append_assoc, List.reverse_append, List.reverse_append,
      List.reverse_reverse, List.reverse_reverse, h1rev]
  simp only [cleanTextL]
  rw [hA, hpre]
  simp only [if_true]
  rw [hdrop, hsuf]
  simp only [if_true]
  rw [hdropR]
  exact stripL_pad _ _ _ (by decide) (by decide)

theorem cleanTextL_wrapPlain (t' : List Char) :
    cleanTextL ("```\n".toList ++ (t' ++ "\n```".toList)) = stripL t' := by
  have hA : stripL ("```\n".toList ++ (t' ++ "\n```".toList))
      = "```\n".toList ++ (t' ++ "\n```".toList) := by
    rw [stripL, dropWhile_append_eq_self pySpace _ _ (by decide) (by decide), dropTrail,
      List.reverse_append, List.reverse_append, List.append_assoc,
      dropWhile_append_eq_self pySpace _ _ (by decide) (by decide),
      ← List.append_assoc, ← List.reverse_append, ← List.reverse_append,
      List.reverse_reverse]
  have hpreJ : ("```json".toList).isPrefixOf
      ("```\n".toList ++ (t' ++ "\n```".toList)) = false :=
    isPrefixOf_append_false _ _ _ (by decide) (by decide)
  have hfw : "```\n".toList = "```".toList ++ "\n".toList := by decide
  have hsplit : "```\n".toList ++ (t' ++ "\n```".toList)
      = "```".toList ++ ("\n".toList ++ (t' ++ "\n```".toList)) := by
    rw [hfw, List.append_assoc]
  have hpre3 : ("```".toList).isPrefixOf
      ("```\n".toList ++ (t' ++ "\n```".toList)) = true := by
    rw [hsplit]
    exact isPrefixOf_append_self _ _
  have h3 : ("```".toList).length = 3 := by decide
  have hdrop : ("```\n".toList ++ (t' ++ "\n```".toList)).drop 3
      = "\n".toList ++ (t' ++ "\n```".toList) := by
    rw [hsplit, ← h3, List.drop_left]
  have hnfrev : ("\n```".toList).reverse = "```".toList ++ "\n".toList := by decide
  have h3rev : ("```".toList).reverse = "```".toList := by decide
  have h1rev : ("\n".toList).reverse = "\n".toList := by decide
  have hsuf : ("```".toList).isSuffixOf ("\n".toList ++ (t' ++ "\n```".toList)) = true := by
    simp only [List.isSuffixOf]
    rw [List.reverse_append, List.reverse_append, hnfrev, List.append_assoc,
      List.append_assoc, h3rev]
    exact isPrefixOf_append_self _ _
  have hdropR : dropRightL 3 ("\n".toList ++ (t' ++ "\n```".toList))
      = "\n".toList ++ (t' ++ "\n".toList) := by
    rw [dropRightL, List.reverse_append, List.reverse_append, hnfrev,
      List.append_assoc, List.append_assoc, ← h3, List.drop_left,
      ← List.append_assoc, List.reverse_append, List.reverse_append,
      List.reverse_reverse, List.reverse_reverse, h1rev]
  simp only [cleanTextL]
  rw [hA, hpreJ]
  simp only [Bool.false_eq_true, if_false]
  rw [hpre3]
  simp only [if_true]
  rw [hdrop, hsuf]
  simp only [if_true]
  rw [hdropR]
  exact stripL_pad _ _ _ (by decide) (by decide)

theorem isPrefixOf_of_isPrefixOf_longer (s : List Char)
    (h : ("```json".toList).isPrefixOf s = true) :
    ("```".toList).isPrefixOf s = true := by
  cases s with
  | nil => simp [List.isPrefixOf] at h
  | cons a r =>
    cases r with
    | nil => simp [List.isPrefixOf] at h
    | cons b r2 =>
      cases r2 with
      | nil => simp [List.isPrefixOf] at h
      | cons c r3 =>
        simp only [List.isPrefixOf, Bool.and_eq_true] at h ⊢
        exact ⟨h.1, h.2.1, h.2.2.1, trivial⟩

theorem cleanTextL_no_fence (l : List Char)
    (h1 : ("```".toList).isPrefixOf (stripL l) = false)
    (h2 : ("```".toList).isSuffixOf (stripL l) = false) :
    cleanTextL l = stripL l := by
  have hJ : ("```json".toList).isPrefixOf (stripL l) = false := by
    cases hj : ("```json".toList).isPrefixOf (stripL l) with
    | false => rfl
    | true =>
      rw [isPrefixOf_of_isPrefixOf_longer _ hj] at h1
      cases h1
  simp only [cleanTextL]
  rw [hJ]
  simp only [Bool.false_eq_true, if_false]
  rw [h1]
  simp only [Bool.false_eq_true, if_false]
  rw [h2]
  simp only [Bool.false_eq_true, if_false]
  exact stripL_idem l

theorem extractCore_mkEnv (t : String) (h : t.data.isEmpty = false) :
    extractCore (mkEnv t) =
      match parseStage (cleanTextL t.data) with
      | .error e => .error e
      | .ok j => validateResult j := by
  simp [extractCore, upToParse, descend, mkEnv, pyGet, lookupKV, pyTruthy, pyIndex0,
    textOf, h]


theorem extract_mkEnv_empty (t : String) (h : t.data.isEmpty = true) :
    extract_json_from_response (mkEnv t) =
      .error "Failed to extract JSON from response: No text in response parts" := by
  simp [extract_json_from_response, extractCore, upToParse, descend, mkEnv, pyGet,
    lookupKV, pyTruthy, pyIndex0, textOf, h, errMsg]


theorem validateResult_ok_shape (r out : Json) (h : validateResult r = .ok out) :
    ∃ kvs b cv q rs,
      r = .obj kvs ∧
      lookupKV kvs "contaminated" = some (.bool b) ∧
      lookupKV kvs "confidence" = some cv ∧ asNumeric cv = some q ∧
      lookupKV kvs "reason" = some (.str rs) ∧
      out = .obj (insertKV kvs "confidence" (.num (clampQ q))) := by
  cases r with
  | null => simp [validateResult, pyContains] at h
  | bool b => simp [validateResult, pyContains] at h
  | num q => simp [validateResult, pyContains] at h
  | str s =>
    simp only [validateResult, pyContains, pyGetItem] at h
    repeat' split at h
    all_goals simp_all
  | arr xs =>
    simp only [validateResult, pyContains, pyGetItem] at h
    repeat' split at h
    all_goals simp_all
  | obj kvs =>
    cases hc : lookupKV kvs "contaminated" with
    | none => simp [validateResult, pyContains, hc] at h
    | some vc =>
      cases hq : lookupKV kvs "confidence" with
      | none => simp [validateResult, pyContains, hc, hq] at h
      | some vq =>
        cases hr : lookupKV kvs "reason" with
        | none => simp [validateResult, pyContains, hc, hq, hr] at h
        | some vr =>
          simp only [validateResult, pyContains, hc, hq, hr, Option.isSome_some,
            pyGetItem, pySetItem] at h
          cases vc with
          | bool b =>
            simp only [isBoolJ, Bool.not_true, Bool.false_eq_true, if_false] at h
            cases hn : asNumeric vq with
            | none => simp [hn] at h
            | some q =>
              rw [hn] at h
              cases vr with
              | str rs =>
                simp only [isStrJ, Bool.not_true, Bool.false_eq_true, if_false] at h
                refine ⟨kvs, b, vq, q, rs, rfl, hc, hq, hn, hr, ?_⟩
                cases h
                rfl
              | null => simp [isStrJ] at h
              | bool b2 => simp [isStrJ] at h
              | num q2 => simp [isStrJ] at h
              | arr xs => simp [isStrJ] at h
              | obj kvs2 => simp [isStrJ] at h
          | null => simp [isBoolJ] at h
          | num q2 => simp [isBoolJ] at h
          | str s2 => simp [isBoolJ] at h
          | arr xs2 => simp [isBoolJ] at h
          | obj kvs2 => simp [isBoolJ] at h


theorem validate_field_iff (kvs : List (String × Json)) :
    (∃ e f, validateResult (.obj kvs) = .error e ∧ fieldErrName e = some f) ↔
      (fieldProblem kvs "contaminated" = true ∨ fieldProblem kvs "confidence" = true ∨
        fieldProblem kvs "reason" = true) := by
  cases hc : lookupKV kvs "contaminated" with
  | none =>
    have hval : validateResult (.obj kvs) = .error (.missingField "contaminated") := by
      simp [validateResult, pyContains, hc]
    constructor
    · intro _
      left
      simp [fieldProblem, hc]
    · intro _
      exact ⟨_, "contaminated", hval, rfl⟩
  | some vc =>
    cases hq : lookupKV kvs "confidence" with
    | none =>
      have hval : validateResult (.obj kvs) = .error (.missingField "confidence") := by
        simp [validateResult, pyContains, hc, hq]
      constructor
      · intro _
        right
        left
        simp [fieldProblem, hq]
      · intro _
        exact ⟨_, "confidence", hval, rfl⟩
    | some vq =>
      cases hr : lookupKV kvs "reason" with
      | none =>
        have hval : validateResult (.obj kvs) = .error (.missingField "reason") := by
          simp [validateResult, pyContains, hc, hq, hr]
        constructor
        · intro _
          right
          right
          simp [fieldProblem, hr]
        · intro _
          exact ⟨_, "reason", hval, rfl⟩
      | some vr =>
        by_cases hb : isBoolJ vc = true
        · by_cases hn : (asNumeric vq).isSome = true
          · by_cases hs : isStrJ vr = true
            · obtain ⟨q, hq2⟩ := Option.isSome_iff_exists.mp hn
              have hval : validateResult (.obj kvs)
                  = .ok (.obj (insertKV kvs "confidence" (.num (clampQ q)))) := by
                simp [validateResult, pyContains, pyGetItem, pySetItem, hc, hq, hr,
                  hb, hq2, hs]
              constructor
              · rintro ⟨e, f, heq, -⟩
                rw [hval] at heq
                cases heq
              · intro hcontra
                rcases hcontra with hx | hx | hx <;>
                  simp [fieldProblem, hc, hq, hr, hb, hn, hs] at hx
            · have hs' : isStrJ vr = false := by simpa using hs
              obtain ⟨q, hq2⟩ := Option.isSome_iff_exists.mp hn
              have hval : validateResult (.obj kvs) = .error .badReason := by
                simp [validateResult, pyContains, pyGetItem, hc, hq, hr, hb, hq2, hs']
              constructor
              · intro _
                right
                right
                simp [fieldProblem, hr, hs']
              · intro _
                exact ⟨_, "reason", hval, rfl⟩
          · have hn' : asNumeric vq = none := by
              cases hx : asNumeric vq with
              | none => rfl
              | some q => rw [hx] at hn; simp at hn
            have hval : validateResult (.obj kvs) = .error .badConfidence := by
              simp [validateResult, pyContains, pyGetItem, hc, hq, hr, hb, hn']
            constructor
            · intro _
              right
              left
              simp [fieldProblem, hq, hn']
            · intro _
              exact ⟨_, "confidence", hval, rfl⟩
        · have hb' : isBoolJ vc = false := by simpa using hb
          have hval : validateResult (.obj kvs) = .error .badContaminated := by
            simp [validateResult, pyContains, pyGetItem, hc, hq, hr, hb']
          constructor
          · intro _
            left
            simp [fieldProblem, hc, hb']
          · intro _
            exact ⟨_, "contaminated", hval, rfl⟩

theorem clampQ_toRat_eq (q : Q) : (clampQ q).toRat = max 0 (min 1 q.toRat) := by
  rw [clampQ, pymin]
  by_cases h2 : Q.blt q qOne = true
  · have hq1 : q.toRat < 1 := by
      have := (Q.blt_iff q qOne).mp h2
      rwa [qOne_toRat] at this
    rw [if_pos h2, pymax]
    by_cases h0 : Q.blt qZero q = true
    · have hq0 : 0 < q.toRat := by
        have := (Q.blt_iff qZero q).mp h0
        rwa [qZero_toRat] at this
      rw [if_pos h0, min_eq_right (le_of_lt hq1), max_eq_right (le_of_lt hq0)]
    · have hq0 : q.toRat ≤ 0 := by
        by_contra hcon
        exact h0 ((Q.blt_iff qZero q).mpr (by rw [qZero_toRat]; linarith))
      rw [if_neg h0, qZero_toRat, min_eq_right (by linarith), max_eq_left hq0]
  · have hq1 : 1 ≤ q.toRat := by
      by_contra hcon
      exact h2 ((Q.blt_iff q qOne).mpr (by rw [qOne_toRat]; linarith))
    rw [if_neg h2, pymax]
    have h0 : Q.blt qZero qOne = true := by
      rw [Q.blt_iff, qZero_toRat, qOne_toRat]
      norm_num
    rw [if_pos h0, qOne_toRat, min_eq_left hq1, max_eq_right (by norm_num : (0:ℚ) ≤ 1)]

theorem extract_ok_of_numeric_fields (env : Json) (kvs : List (String × Json))
    (q : Q) (hup : upToParse env = .ok (.obj kvs))
    (hc : ∃ b, lookupKV kvs "contaminated" = some (.bool b))
    (hq : lookupKV kvs "confidence" = some (.num q))
    (hr : ∃ rs, lookupKV kvs "reason" = some (.str rs)) :
    ∃ r, extract_json_from_response env = .ok r ∧
      objGet? r "confidence" = some (.num (clampQ q)) := by
  obtain ⟨b, hc⟩ := hc
  obtain ⟨rs, hr⟩ := hr
  have hval : validateResult (.obj kvs)
      = .ok (.obj (insertKV kvs "confidence" (.num (clampQ q)))) := by
    simp [validateResult, pyContains, pyGetItem, pySetItem, hc, hq, hr, isBoolJ,
      isStrJ, asNumeric]
  refine ⟨.obj (insertKV kvs "confidence" (.num (clampQ q))), ?_, ?_⟩
  · simp [extract_json_from_response, extractCore, hup, hval]
  · simp only [objGet?]
    exact lookupKV_insert_self kvs "confidence" _


theorem stripDataUrl_cases (s : String) :
    (("data:image".toList).isPrefixOf s.data = true →
      (∀ pre post, s.data = pre ++ ',' :: post → ',' ∉ pre →
         strip_data_url_prefix s = String.mk post) ∧
      (',' ∉ s.data → strip_data_url_prefix s = s)) ∧
    (("data:image".toList).isPrefixOf s.data = false →
       strip_data_url_prefix s = s) := by
  constructor
  · intro hp
    constructor
    · intro pre post hsplit hnc
      simp only [ strip_data_url_prefix, hp, if_true]
      rw [hsplit, afterFirstComma_of_split pre post hnc]
    · intro hnc
      simp only [ strip_data_url_prefix, hp, if_true]
      rw [afterFirstComma_of_no_comma s.data hnc]
  · intro hp
    simp only [ strip_data_url_prefix]
    rw [hp]
    simp

/-! ## Claim theorems -/

/-- Claim C1: every dictionary returned successfully by
`extract_json_from_response` has a strict-boolean `contaminated`, a numeric
`confidence` whose value lies in [0, 1], and a string `reason`; the stored
confidence is the clamp of the upstream value to the nearest bound
(`max 0 (min 1 _)`), and an envelope whose parsed object has well-typed
fields is never rejected for an out-of-range confidence. -/
theorem extract_result_invariants :
    (∀ env r, extract_json_from_response env = .ok r →
      ∃ b q rs, objGet? r "contaminated" = some (.bool b) ∧
        objGet? r "confidence" = some (.num q) ∧
        0 ≤ q.toRat ∧ q.toRat ≤ 1 ∧
        objGet? r "reason" = some (.str rs)) ∧
    (∀ q, (clampQ q).toRat = max 0 (min 1 q.toRat)) ∧
    (∀ env kvs q, upToParse env = .ok (.obj kvs) →
      (∃ b, lookupKV kvs "contaminated" = some (.bool b)) →
      lookupKV kvs "confidence" = some (.num q) →
      (∃ rs, lookupKV kvs "reason" = some (.str rs)) →
      ∃ r, extract_json_from_response env = .ok r ∧
        objGet? r "confidence" = some (.num (clampQ q))) := by
  refine ⟨?_, clampQ_toRat_eq, extract_ok_of_numeric_fields⟩
  intro env r h
  have hcore : extractCore env = .ok r := by
    cases he : extractCore env with
    | error e => simp [extract_json_from_response, he] at h
    | ok v =>
      simp only [extract_json_from_response, he, Except.ok.injEq] at h
      rw [h]
  have hval : ∃ j, upToParse env = .ok j ∧ validateResult j = .ok r := by
    cases hu : upToParse env with
    | error e => simp [extractCore, hu] at hcore
    | ok j => exact ⟨j, rfl, by simpa [extractCore, hu] using hcore⟩
  obtain ⟨j, -, hv⟩ := hval
  obtain ⟨kvs, b, cv, q, rs, hj, hc, hq, hn, hr, hout⟩ := validateResult_ok_shape j r hv
  subst hout
  refine ⟨b, clampQ q, rs, ?_, ?_, clampQ_toRat_nonneg q, clampQ_toRat_le_one q, ?_⟩
  · simp only [objGet?]
    rw [lookupKV_insert_ne kvs "confidence" "contaminated" _ (by decide), hc]
  · simp only [objGet?]
    rw [lookupKV_insert_self]
  · simp only [objGet?]
    rw [lookupKV_insert_ne kvs "confidence" "reason" _ (by decide), hr]

/-- Witness for C1 at concrete successful extractions, including an
out-of-range confidence that is clamped rather than rejected. -/
theorem extract_result_invariants_witness :
    (∃ b q rs,
      objGet? (.obj [("contaminated", .bool true), ("confidence", .num qHalf),
        ("reason", .str "x")]) "contaminated" = some (.bool b) ∧
      objGet? (.obj [("contaminated", .bool true), ("confidence", .num qHalf),
        ("reason", .str "x")]) "confidence" = some (.num q) ∧
      0 ≤ q.toRat ∧ q.toRat ≤ 1 ∧
      objGet? (.obj [("contaminated", .bool true), ("confidence", .num qHalf),
        ("reason", .str "x")]) "reason" = some (.str rs)) ∧
    (clampQ qHalf).toRat = max 0 (min 1 qHalf.toRat) ∧
    (∃ r, extract_json_from_response (mkEnv textClampNeg) = .ok r ∧
      objGet? r "confidence" = some (.num (clampQ qNegHalf))) :=
  ⟨extract_result_invariants.1 (mkEnv textClampHalf) _ rfl,
   extract_result_invariants.2.1 qHalf,
   extract_result_invariants.2.2 (mkEnv textClampNeg)
     [("contaminated", .bool true), ("confidence", .num qNegHalf),
      ("reason", .str "x")] qNegHalf rfl ⟨true, rfl⟩ rfl ⟨"x", rfl⟩⟩

/-- Claim C2: for otherwise-valid upstream JSON, confidence `-0.5` extracts
to `0.0`, `0.5` to `0.5`, and `1.7` to `1.0`; extraction succeeds in every
case (out-of-range values are corrected, not rejected). -/
theorem confidence_clamp_examples :
    (extract_json_from_response (mkEnv textClampNeg) =
      .ok (.obj [("contaminated", .bool true), ("confidence", .num qZero),
                 ("reason", .str "x")]) ∧ qZero.toRat = 0) ∧
    (extract_json_from_response (mkEnv textClampHalf) =
      .ok (.obj [("contaminated", .bool true), ("confidence", .num qHalf),
                 ("reason", .str "x")]) ∧ qHalf.toRat = 1 / 2) ∧
    (extract_json_from_response (mkEnv textClampBig) =
      .ok (.obj [("contaminated", .bool true), ("confidence", .num qOne),
                 ("reason", .str "x")]) ∧ qOne.toRat = 1) :=
  ⟨⟨rfl, qZero_toRat⟩, ⟨rfl, by norm_num [qHalf, Q.toRat]⟩, ⟨rfl, qOne_toRat⟩⟩

/-- Claim C3, counterexample to the quoted message: a missing `reason` field
produces `Missing required field: reason` (wrapped by the outer handler), and
the claim's literal message `missing field: reason` occurs nowhere in it,
even after ASCII lowercasing. -/
theorem missing_field_message_counterexample :
    extract_json_from_response (mkEnv textMissingReason) =
      .error "Failed to extract JSON from response: Missing required field: reason" ∧
    strContains
      (strLowerAscii
        "Failed to extract JSON from response: Missing required field: reason")
      "missing field: reason" = false :=
  ⟨rfl, by decide⟩

/-- Claim C3 (amended): on a parsed JSON object, `extract_json_from_response`
fails with an error naming a required field if and only if one of
`contaminated`, `confidence`, `reason` is missing or mistyped; a missing
field is reported as `Missing required field: <name>` and each type
mismatch as `'<name>' must be a boolean`/`a number`/`a string`, the message
wrapped in the `Failed to extract JSON from response: ` prefix. -/
theorem field_error_characterization (env : Json) (kvs : List (String × Json))
    (h : upToParse env = .ok (.obj kvs)) :
    ((∃ e f, extractCore env = .error e ∧ fieldErrName e = some f) ↔
      (fieldProblem kvs "contaminated" = true ∨ fieldProblem kvs "confidence" = true ∨
        fieldProblem kvs "reason" = true)) ∧
    (∀ e f, extractCore env = .error e → fieldErrName e = some f →
      strContains (errMsg e) f = true ∧
      extract_json_from_response env =
        .error ("Failed to extract JSON from response: " ++ errMsg e)) ∧
    (∀ f, errMsg (.missingField f) = "Missing required field: " ++ f) ∧
    errMsg .badContaminated = "'contaminated' must be a boolean" ∧
    errMsg .badConfidence = "'confidence' must be a number" ∧
    errMsg .badReason = "'reason' must be a string" := by
  have hcore : extractCore env = validateResult (.obj kvs) := by
    simp [extractCore, h]
  refine ⟨?_, ?_, fun f => rfl, rfl, rfl, rfl⟩
  · rw [hcore]
    exact validate_field_iff kvs
  · intro e f he hf
    refine ⟨?_, by simp [extract_json_from_response, he]⟩
    cases e <;> simp only [fieldErrName, Option.some.injEq, reduceCtorEq] at hf
    case missingField g =>
      have hmsg : errMsg (ExtractErr.missingField g) = "Missing required field: " ++ g :=
        rfl
      rw [hmsg, ← hf]
      show containsSeq g.data ("Missing required field: " ++ g).data = true
      rw [String.data_append]
      exact containsSeq_append_self _ _
    case badContaminated => rw [← hf]; decide
    case badConfidence => rw [← hf]; decide
    case badReason => rw [← hf]; decide

/-- Witness for the amended C3 at an envelope whose object lacks `reason`. -/
theorem field_error_characterization_witness :
    ∃ e f, extractCore (mkEnv textMissingReason) = .error e ∧
      fieldErrName e = some f :=
  (field_error_characterization (mkEnv textMissingReason)
    [("contaminated", Json.bool true), ("confidence", Json.num qHalf)]
    rfl).1.mpr (by decide)

/-- Claim C4, counterexample: this text extracts successfully on its own, but
wrapping it in a triple-backtick fence (with or without the `json` tag) makes
extraction fail — the double fence survives one stripping pass, strict parse
fails, and the regex fallback truncates at the brace inside the `reason`
string. -/
theorem fence_wrap_counterexample :
    extract_json_from_response (mkEnv textFencedSelf) =
      .ok (.obj [("contaminated", .bool true), ("confidence", .num qHalf),
                 ("reason", .str "\x7d")]) ∧
    extract_json_from_response (mkEnv (fenceWrapJson textFencedSelf)) =
      .error "Failed to extract JSON from response: Unterminated string starting at: line 1 column 53 (char 52)" ∧
    extract_json_from_response (mkEnv (fenceWrapPlain textFencedSelf)) =
      .error "Failed to extract JSON from response: Unterminated string starting at: line 1 column 53 (char 52)" :=
  ⟨rfl, rfl, rfl⟩

/-- Claim C4 (amended): for upstream text whose trimmed form neither begins
nor ends with a triple-backtick fence marker, successful extraction is
preserved verbatim by wrapping the text in a code fence, with or without the
`json` language tag. -/
theorem fence_wrap_preserves_extraction (t : String) (r : Json)
    (h1 : ("```".toList).isPrefixOf (stripL t.data) = false)
    (h2 : ("```".toList).isSuffixOf (stripL t.data) = false)
    (hok : extract_json_from_response (mkEnv t) = .ok r) :
    extract_json_from_response (mkEnv (fenceWrapJson t)) = .ok r ∧
    extract_json_from_response (mkEnv (fenceWrapPlain t)) = .ok r := by
  have ht : t.data.isEmpty = false := by
    cases hh : t.data.isEmpty with
    | false => rfl
    | true =>
      rw [extract_mkEnv_empty t hh] at hok
      cases hok
  have hwJdata : (fenceWrapJson t).data
      = "```json\n".toList ++ (t.data ++ "\n```".toList) := by
    simp [fenceWrapJson, String.data_append, List.append_assoc]
  have hwPdata : (fenceWrapPlain t).data
      = "```\n".toList ++ (t.data ++ "\n```".toList) := by
    simp [fenceWrapPlain, String.data_append, List.append_assoc]
  have hwJne : (fenceWrapJson t).data.isEmpty = false := by
    rw [hwJdata]; rfl
  have hwPne : (fenceWrapPlain t).data.isEmpty = false := by
    rw [hwPdata]; rfl
  have hcoreJ : extractCore (mkEnv (fenceWrapJson t)) = extractCore (mkEnv t) := by
    rw [extractCore_mkEnv _ hwJne, extractCore_mkEnv t ht, hwJdata,
      cleanTextL_wrapJson, cleanTextL_no_fence t.data h1 h2]
  have hcoreP : extractCore (mkEnv (fenceWrapPlain t)) = extractCore (mkEnv t) := by
    rw [extractCore_mkEnv _ hwPne, extractCore_mkEnv t ht, hwPdata,
      cleanTextL_wrapPlain, cleanTextL_no_fence t.data h1 h2]
  constructor
  · have heq : extract_json_from_response (mkEnv (fenceWrapJson t))
        = extract_json_from_response (mkEnv t) := by
      unfold extract_json_from_response
      rw [hcoreJ]
    rw [heq, hok]
  · have heq : extract_json_from_response (mkEnv (fenceWrapPlain t))
        = extract_json_from_response (mkEnv t) := by
      unfold extract_json_from_response
      rw [hcoreP]
    rw [heq, hok]

/-- Witness for the amended C4 at a plain JSON text. -/
theorem fence_wrap_preserves_extraction_witness :
    extract_json_from_response (mkEnv (fenceWrapJson textClampHalf)) =
      .ok (.obj [("contaminated", .bool true), ("confidence", .num qHalf),
                 ("reason", .str "x")]) ∧
    extract_json_from_response (mkEnv (fenceWrapPlain textClampHalf)) =
      .ok (.obj [("contaminated", .bool true), ("confidence", .num qHalf),
                 ("reason", .str "x")]) :=
  fence_wrap_preserves_extraction textClampHalf _ (by decide) (by decide) rfl

/-- Claim C5: ` strip_data_url_prefix` returns the substring after the first
comma when the input begins with `data:image` and contains a comma, and
returns the input unchanged when the marker is absent or no comma exists. -/
theorem strip_data_url_prefix_cases (s : String) :
    (("data:image".toList).isPrefixOf s.data = true →
      (∀ pre post, s.data = pre ++ ',' :: post → ',' ∉ pre →
         strip_data_url_prefix s = String.mk post) ∧
      (',' ∉ s.data → strip_data_url_prefix s = s)) ∧
    (("data:image".toList).isPrefixOf s.data = false →
       strip_data_url_prefix s = s) :=
  stripDataUrl_cases s

/-- Witness for C5 on a data-URL, a comma-free marker string, and a plain
string. -/
theorem strip_data_url_prefix_cases_witness :
    strip_data_url_prefix "data:image/png;base64,XY" = "XY" ∧
    strip_data_url_prefix "data:image" = "data:image" ∧
    strip_data_url_prefix "hello" = "hello" :=
  ⟨(( strip_data_url_prefix_cases "data:image/png;base64,XY").1 (by decide)).1
      "data:image/png;base64".toList "XY".toList (by decide) (by decide),
   (( strip_data_url_prefix_cases "data:image").1 (by decide)).2 (by decide),
   ( strip_data_url_prefix_cases "hello").2 (by decide)⟩

/-- Claim C6, counterexample: the normalizer is not idempotent — a stripped
result can itself begin with the marker and contain a comma, so a second
application strips again. The input is itself a well-formed data-URL, so the
claim's `"data:image/jpeg;base64," + payload` family fails too. -/
theorem strip_idempotence_counterexample :
    strip_data_url_prefix ( strip_data_url_prefix idemCounterInput) ≠
      strip_data_url_prefix idemCounterInput ∧
    strip_data_url_prefix idemCounterInput = "data:image,x" ∧
    strip_data_url_prefix ( strip_data_url_prefix idemCounterInput) = "x" :=
  ⟨by decide, rfl, rfl⟩

/-- Claim C6 (amended): ` strip_data_url_prefix` is idempotent on every
string whose normalized form does not both begin with the `data:image`
marker and contain a comma — in particular whenever the stripped payload does
not itself look like a data-URL. -/
theorem strip_idempotent_unless_marker_remains (s : String)
    (h : ("data:image".toList).isPrefixOf ( strip_data_url_prefix s).data = false ∨
         ',' ∉ ( strip_data_url_prefix s).data) :
    strip_data_url_prefix ( strip_data_url_prefix s) = strip_data_url_prefix s := by
  rcases h with h | h
  · exact (stripDataUrl_cases _).2 h
  · by_cases hp : ("data:image".toList).isPrefixOf
        ( strip_data_url_prefix s).data = true
    · exact ((stripDataUrl_cases _).1 hp).2 h
    · exact (stripDataUrl_cases _).2 (Bool.eq_false_iff.mpr hp)

/-- Witness for the amended C6 on a normal data-URL. -/
theorem strip_idempotent_unless_marker_remains_witness :
    strip_data_url_prefix ( strip_data_url_prefix "data:image/jpeg;base64,AAA") =
      strip_data_url_prefix "data:image/jpeg;base64,AAA" :=
  strip_idempotent_unless_marker_remains "data:image/jpeg;base64,AAA"
    (Or.inl (by decide))

/-- Claim C7: a missing or empty value at each level of the envelope descent
`candidates[0].content.parts[0].text` fails extraction with the level's
message — the `no candidates`, `no parts`, and `no text` errors of the spec,
rendered as server.py's exact strings (each contains the spec's phrase up to
ASCII case). -/
theorem envelope_error_messages :
    (∀ (kvs : List (String × Json)),
      pyTruthy ((lookupKV kvs "candidates").getD (.arr [])) = false →
      extract_json_from_response (.obj kvs) =
        .error "Failed to extract JSON from response: No candidates in Gemini response") ∧
    (∀ (kvs c0kvs ckvs : List (String × Json)) (tail : List Json),
      (lookupKV kvs "candidates").getD (.arr []) = .arr (.obj c0kvs :: tail) →
      (lookupKV c0kvs "content").getD (.obj []) = .obj ckvs →
      pyTruthy ((lookupKV ckvs "parts").getD (.arr [])) = false →
      extract_json_from_response (.obj kvs) =
        .error "Failed to extract JSON from response: No parts in candidate content") ∧
    (∀ (kvs c0kvs ckvs p0kvs : List (String × Json)) (tail ptail : List Json),
      (lookupKV kvs "candidates").getD (.arr []) = .arr (.obj c0kvs :: tail) →
      (lookupKV c0kvs "content").getD (.obj []) = .obj ckvs →
      (lookupKV ckvs "parts").getD (.arr []) = .arr (.obj p0kvs :: ptail) →
      pyTruthy ((lookupKV p0kvs "text").getD (.str "")) = false →
      extract_json_from_response (.obj kvs) =
        .error "Failed to extract JSON from response: No text in response parts") ∧
    (strContains (strLowerAscii (errMsg .noCandidates)) "no candidates" = true ∧
     strContains (strLowerAscii (errMsg .noParts)) "no parts" = true ∧
     strContains (strLowerAscii (errMsg .noText)) "no text" = true) := by
  refine ⟨?_, ?_, ?_, by decide, by decide, by decide⟩
  · intro kvs h
    simp [extract_json_from_response, extractCore, upToParse, descend, pyGet, h,
      errMsg]
  · intro kvs c0kvs ckvs tail h1 h2 h3
    simp [extract_json_from_response, extractCore, upToParse, descend, pyGet, h1, h2,
      h3, pyIndex0, errMsg,
      show pyTruthy (.arr (Json.obj c0kvs :: tail)) = true from rfl]
  · intro kvs c0kvs ckvs p0kvs tail ptail h1 h2 h3 h4
    simp [extract_json_from_response, extractCore, upToParse, descend, pyGet, h1, h2,
      h3, h4, pyIndex0, errMsg,
      show pyTruthy (.arr (Json.obj c0kvs :: tail)) = true from rfl,
      show pyTruthy (.arr (Json.obj p0kvs :: ptail)) = true from rfl]

/-- Witness for C7 at the three minimal failing envelopes. -/
theorem envelope_error_messages_witness :
    extract_json_from_response (.obj []) =
      .error "Failed to extract JSON from response: No candidates in Gemini response" ∧
    extract_json_from_response (.obj [("candidates", .arr [.obj []])]) =
      .error "Failed to extract JSON from response: No parts in candidate content" ∧
    extract_json_from_response
        (.obj [("candidates", .arr
          [.obj [("content", .obj [("parts", .arr [.obj []])])]])]) =
      .error "Failed to extract JSON from response: No text in response parts" :=
  ⟨envelope_error_messages.1 [] (by decide),
   envelope_error_messages.2.1 [("candidates", .arr [.obj []])] [] [] [] rfl rfl
     (by decide),
   envelope_error_messages.2.2.1
     [("candidates", .arr [.obj [("content", .obj [("parts", .arr [.obj []])])]])]
     [("content", .obj [("parts", .arr [.obj []])])] [("parts", .arr [.obj []])] []
     [] [] rfl rfl rfl (by decide)⟩

/-- Claim C8, counterexample: when the regex fallback finds a brace-delimited
substring that itself fails to parse, the resulting error carries the JSON
decoder's diagnostic, not the first 200 characters of the cleaned text. -/
theorem parse_error_excerpt_counterexample :
    cleanTextL textBadBrace.data = textBadBrace.data ∧
    extract_json_from_response (mkEnv textBadBrace) =
      .error "Failed to extract JSON from response: Expecting property name enclosed in double quotes: line 1 column 2 (char 1)" ∧
    strContains
      "Failed to extract JSON from response: Expecting property name enclosed in double quotes: line 1 column 2 (char 1)"
      (String.mk (textBadBrace.data.take 200)) = false :=
  ⟨rfl, rfl, by decide⟩

/-- Claim C8 (amended): when strict parsing of the cleaned text fails, the
fallback parses the first brace-delimited substring the regex scan finds; if
no such substring exists the error carries the first 200 characters of the
cleaned text, and if the substring fails to parse the decoder's own error
propagates instead. -/
theorem parse_fallback_error_forms (t : List Char) (e1 : DErr)
    (h : jsonParse t = .error e1) :
    (reSearchBrace t = none →
      parseStage t = .error (.couldNotParse (String.mk (t.take 200))) ∧
      strContains (errMsg (.couldNotParse (String.mk (t.take 200))))
        (String.mk (t.take 200)) = true) ∧
    (∀ m e2, reSearchBrace t = some m → jsonParse m = .error e2 →
      parseStage t = .error (.decodeFail (renderDErr m e2))) := by
  constructor
  · intro hn
    refine ⟨by simp [parseStage, h, hn], ?_⟩
    show containsSeq (String.mk (t.take 200)).data
      ("Could not parse JSON from response: " ++ String.mk (t.take 200)).data = true
    rw [String.data_append]
    exact containsSeq_append_self _ _
  · intro m e2 hm h2
    simp [parseStage, h, hm, h2]

/-- Witness for the amended C8: no brace at all, and a brace substring that
fails to parse. -/
theorem parse_fallback_error_forms_witness :
    (parseStage textNoJson.data =
       .error (.couldNotParse (String.mk (textNoJson.data.take 200))) ∧
     strContains (errMsg (.couldNotParse (String.mk (textNoJson.data.take 200))))
       (String.mk (textNoJson.data.take 200)) = true) ∧
    parseStage textBadBrace.data =
      .error (.decodeFail (renderDErr "\x7b]\x7d".toList
        ⟨"Expecting property name enclosed in double quotes", 1⟩)) :=
  ⟨(parse_fallback_error_forms textNoJson.data ⟨"Expecting value", 0⟩ rfl).1 rfl,
   (parse_fallback_error_forms textBadBrace.data ⟨"Expecting value", 0⟩ rfl).2
     "\x7b]\x7d".toList ⟨"Expecting property name enclosed in double quotes", 1⟩
     rfl rfl⟩

/-- Claim C9: when extraction fails, `/predict` answers HTTP 500 with a
detail object carrying the validation error message and, when the raw
upstream text is recoverable from the envelope, at most its first 500
characters as `raw_response`. -/
theorem predict_extraction_failure_response (env : Json) (msg image s : String)
    (hex : extract_json_from_response env = .error msg)
    (himg : ( strip_data_url_prefix image).data.isEmpty = false)
    (hraw : recoverRaw env = .str s) :
    predictWith image (.ok env) =
      .err 500 (.obj
        [("error", .str "Failed to parse JSON from Gemini response"),
         ("message", .str msg),
         ("raw_response", .str (String.mk (s.data.take 500)))]) ∧
    (s.data.take 500).length ≤ 500 := by
  refine ⟨?_, List.length_take_le 500 s.data⟩
  simp [predictWith, himg, hex, hraw, pySlice500]

/-- Witness for C9 at an envelope whose text is not JSON. -/
theorem predict_extraction_failure_response_witness :
    predictWith "img" (.ok (mkEnv textNoJson)) =
      .err 500 (.obj
        [("error", .str "Failed to parse JSON from Gemini response"),
         ("message", .str
           "Failed to extract JSON from response: Could not parse JSON from response: hello"),
         ("raw_response", .str (String.mk (textNoJson.data.take 500)))]) ∧
    (textNoJson.data.take 500).length ≤ 500 :=
  predict_extraction_failure_response (mkEnv textNoJson) _ "img" textNoJson
    rfl rfl rfl

/-- Claim C10: a JSON boolean `confidence` passes the numeric check because
Python `bool` is a subclass of `int`; `true` yields confidence 1.0 and
`false` yields 0.0, while the same laxity is not extended to `contaminated`. -/
theorem boolean_confidence_examples :
    (extract_json_from_response (mkEnv textConfTrue) =
      .ok (.obj [("contaminated", .bool false), ("confidence", .num qOne),
                 ("reason", .str "ok")]) ∧ qOne.toRat = 1) ∧
    (extract_json_from_response (mkEnv textConfFalse) =
      .ok (.obj [("contaminated", .bool false), ("confidence", .num qZero),
                 ("reason", .str "ok")]) ∧ qZero.toRat = 0) :=
  ⟨⟨rfl, qOne_toRat⟩, ⟨rfl, qZero_toRat⟩⟩

end ContamServer
